import Mathlib

/- Shallow embedding of `drivers/thermal/cpucore_cooling.c` (Amlogic S905
kernel tree): the cpucore cooling device record, its control surface
(`cpucore_get_max_state`, `cpucore_get_cur_state`, `cpucore_set_cur_state`),
the trip-notification algorithm (`cpucore_notify_state`), the identifier
allocator wrappers (`get_idr` / `release_idr`) and registration
(`cpucore_cooling_register`).

Machine integers are modelled as `ℕ` / `ℤ`.  The struct declaration
`struct cpucore_cooling_device`, the value of the `CPU_STOP` flag, the
`thermal_instance` / `thermal_zone_device` layout and the idr
implementation live outside the translated file (headers and `lib/idr.c`),
so those parts are modelled from the spec where the doc comments say so. -/

namespace CpucoreCooling

/-- Modelled from the spec: the distinguished "stop" flag bit that a
`set_cur_state` request may carry (`CPU_STOP`, declared in the header
`include/linux/cpucore_cooling.h`, which is not part of the tree).  The
spec calls it a reserved flag bit of the request word; it is modelled as a
single reserved high bit. -/
def CPU_STOP : ℕ := 2 ^ 31

/-- The mask realising `state & ~CPU_STOP` on the 64-bit `unsigned long`
request word: every bit of the word except the stop flag. -/
def CPU_STOP_COMPL : ℕ := 2 ^ 64 - 1 - CPU_STOP

/-- The cooling-device record `struct cpucore_cooling_device`.  The struct
declaration lives in the missing header; field types are modelled from the
spec (§3): integer id and levels, boolean stop latch.  The
`cool_dev` framework back-pointer carries no algorithmic content and is
omitted. -/
structure CpucoreCoolingDevice where
  id : ℕ
  max_cpu_core_num : ℕ
  cpucore_state : ℕ
  stop_flag : Bool
deriving DecidableEq

/-- Result of one `cpucore_set_cur_state` call: the updated record and, when
the level was committed, the argument passed to the core-count actuation
call `cpufreq_set_max_cpu_num` (`set_max_num = max_cpu_core_num - state`). -/
structure SetCurResult where
  dev : CpucoreCoolingDevice
  actuation : Option ℤ
deriving DecidableEq

/-- `cpucore_get_max_state`: reports `max_cpu_core_num`. -/
def cpucore_get_max_state (d : CpucoreCoolingDevice) : ℕ :=
  d.max_cpu_core_num

/-- `cpucore_get_cur_state`: reports `cpucore_state`. -/
def cpucore_get_cur_state (d : CpucoreCoolingDevice) : ℕ :=
  d.cpucore_state

/-- The `unsigned long` subtraction `max_cpu_core_num - state` of the
saturation check: `state` is `unsigned long`, so the usual arithmetic
conversions make the subtraction unsigned whatever integer type the absent
header gives `max_cpu_core_num`, and a negative true difference wraps
modulo `2 ^ 64`. -/
def usub64 (a b : ℕ) : ℕ :=
  if b ≤ a then a - b else 2 ^ 64 - (b - a) % 2 ^ 64

/-- The conversion of the wrapped `unsigned long` difference to the `int`
local `set_max_num`: two's-complement reading of its low 32 bits. -/
def toInt32 (n : ℕ) : ℤ :=
  if n % 2 ^ 32 < 2 ^ 31 then ((n % 2 ^ 32 : ℕ) : ℤ)
  else ((n % 2 ^ 32 : ℕ) : ℤ) - 2 ^ 32

/-- `cpucore_set_cur_state`: if the latch `stop_flag` is set, return with no
effect; otherwise, if the request carries `CPU_STOP`, set the latch and
strip the flag; then, if `max_cpu_core_num - state > 0` - computed on
`unsigned long`, where the subtraction wraps, so the test passes exactly
when the two values differ - commit the level and issue the actuation call
with `set_max_num`, the `int` reading of the wrapped difference; only a
request exactly equal to `max_cpu_core_num` is dropped. -/
def cpucore_set_cur_state (d : CpucoreCoolingDevice) (state : ℕ) :
    SetCurResult :=
  if d.stop_flag then ⟨d, none⟩
  else
    let p :=
      if state &&& CPU_STOP = CPU_STOP then
        ({ d with stop_flag := true }, state &&& CPU_STOP_COMPL)
      else (d, state)
    if usub64 p.1.max_cpu_core_num p.2 > 0 then
      ⟨{ p.1 with cpucore_state := p.2 },
        some (toInt32 (usub64 p.1.max_cpu_core_num p.2))⟩
    else ⟨p.1, none⟩

/-- The trip types of `enum thermal_trip_type` (header not in the tree;
the translated code only distinguishes `THERMAL_TRIP_HOT` from the rest). -/
inductive ThermalTripType
  | ACTIVE
  | PASSIVE
  | HOT
  | CRITICAL
deriving DecidableEq

/-- Modelled from the spec: the part of `struct thermal_zone_device` the
notification algorithm reads - the `enter_hot` flag and, for each trip
index `i < tz->trips`, the result of `get_thermal_instance(tz, cdev, i)`:
`some u` when an instance with declared upper bound `u` (a level, hence a
non-negative integer) is bound there, `none` when the lookup yields NULL. -/
structure ThermalZone where
  enter_hot : Bool
  instances : List (Option ℕ)
deriving DecidableEq

/-- One iteration of the scan `if (ins && ins->upper > upper) upper =
ins->upper;` over the zone's bound trip instances. -/
def upperStep (u : ℤ) (o : Option ℕ) : ℤ :=
  match o with
  | some v => if (v : ℤ) > u then (v : ℤ) else u
  | none => u

/-- The whole scan of `cpucore_notify_state`: starting from `long upper =
-1`, fold `upperStep` over the zone's trip instances. -/
def upperScan (l : List (Option ℕ)) : ℤ :=
  l.foldl upperStep (-1)

/-- `cpucore_notify_state`: on `THERMAL_TRIP_HOT` with `tz->enter_hot`,
scan the bound instances for the largest upper bound, read the current
state, add one, clamp to `upper` when a bound exists and is exceeded, and
commit through `set_cur_state`; on `THERMAL_TRIP_HOT` without `enter_hot`,
commit level 0; any other trip type is ignored. -/
def cpucore_notify_state (d : CpucoreCoolingDevice) (tz : ThermalZone)
    (type : ThermalTripType) : SetCurResult :=
  match type with
  | .HOT =>
    if tz.enter_hot then
      let upper := upperScan tz.instances
      let cur_state := cpucore_get_cur_state d + 1
      let cur_state :=
        if upper ≠ -1 ∧ (cur_state : ℤ) > upper then upper.toNat else cur_state
      cpucore_set_cur_state d cur_state
    else
      cpucore_set_cur_state d 0
  | _ => ⟨d, none⟩

/-- Scan of the identifier space from `n` upward for a free id, with
explicit fuel (enough fuel always finds one, see `idrScan_spec`). -/
def idrScan (s : Finset ℕ) : ℕ → ℕ → ℕ
  | n, 0 => n
  | n, fuel + 1 => if n ∈ s then idrScan s (n + 1) fuel else n

/-- Modelled from the spec: `get_idr` wraps `idr_alloc` (whose
implementation `lib/idr.c` is not in the tree); per the spec it returns the
smallest non-negative integer not currently outstanding and adds it to the
outstanding set. -/
def get_idr (s : Finset ℕ) : ℕ × Finset ℕ :=
  let n := idrScan s 0 s.card
  (n, insert n s)

/-- Modelled from the spec: `release_idr` wraps `idr_remove`, removing the
id from the outstanding set. -/
def release_idr (s : Finset ℕ) (id : ℕ) : Finset ℕ :=
  s.erase id

/-- The error codes `cpucore_cooling_register` can wrap in `ERR_PTR`. -/
inductive RegError
  | ENOMEM
  | EINVAL
deriving DecidableEq

/-- The subsystem state `cpucore_cooling_register` touches: the idr's
outstanding-id set and the live (allocated, not freed) records. -/
structure RegState where
  idr : Finset ℕ
  records : List CpucoreCoolingDevice
deriving DecidableEq

/-- `cpucore_cooling_register`: allocate a zero-filled record (`kzallocOk`
models `kzalloc` succeeding; on failure return `-ENOMEM`); obtain an id
(`idrOk` models `idr_alloc` succeeding; on failure free the record and
return `-EINVAL`); set `max_cpu_core_num` from `num_possible_cpus()`; bind
the framework cooling device (`bindOk` models
`thermal_of_cooling_device_register` succeeding; on failure release the id,
free the record and return `-EINVAL`); on success set `cpucore_state = 0`
and keep the record live. -/
def cpucore_cooling_register (st : RegState) (numPossibleCpus : ℕ)
    (kzallocOk idrOk bindOk : Bool) :
    Except RegError CpucoreCoolingDevice × RegState :=
  if !kzallocOk then (.error .ENOMEM, st)
  else if !idrOk then (.error .EINVAL, st)
  else
    let a := get_idr st.idr
    let dev : CpucoreCoolingDevice :=
      { id := a.1, max_cpu_core_num := numPossibleCpus,
        cpucore_state := 0, stop_flag := false }
    if !bindOk then
      (.error .EINVAL, { st with idr := release_idr a.2 dev.id })
    else
      (.ok dev, { idr := a.2, records := dev :: st.records })

/-- `k` successive `cpucore_notify_state` calls with trip type
`THERMAL_TRIP_HOT` on the same zone. -/
def notifyIter (tz : ThermalZone) (d : CpucoreCoolingDevice) :
    ℕ → CpucoreCoolingDevice
  | 0 => d
  | k + 1 => (cpucore_notify_state (notifyIter tz d k) tz .HOT).dev

/- Helper lemmas shared by the claim theorems. -/

/-- A latched record freezes `set_cur_state` entirely. -/
theorem set_cur_state_of_stopped (d : CpucoreCoolingDevice) (s : ℕ)
    (h : d.stop_flag = true) : cpucore_set_cur_state d s = ⟨d, none⟩ := by
  simp [cpucore_set_cur_state, h]

/-- A request below `2 ^ 31` never carries the stop flag. -/
theorem and_stop_ne_of_lt (m : ℕ) (h : m < CPU_STOP) :
    m &&& CPU_STOP ≠ CPU_STOP := by
  have hb : m.testBit 31 = false :=
    Nat.testBit_eq_false_of_lt (by simpa [CPU_STOP] using h)
  have h0 : m &&& CPU_STOP = 0 := by
    simpa [CPU_STOP, hb] using Nat.and_two_pow m 31
  rw [h0]
  simp [CPU_STOP]

/-- The wrapped saturation test passes exactly when the two values differ:
a zero wrapped difference means equality, anything else is positive. -/
theorem usub64_pos_iff (a b : ℕ) : usub64 a b > 0 ↔ a ≠ b := by
  unfold usub64
  split <;> omega

/-- Unlatched `set_cur_state` on a flag-free request: pure saturation
check, no latch change. -/
theorem set_cur_state_plain (d : CpucoreCoolingDevice) (s : ℕ)
    (hstop : d.stop_flag = false) (hbit : s &&& CPU_STOP ≠ CPU_STOP) :
    cpucore_set_cur_state d s =
      if usub64 d.max_cpu_core_num s > 0 then
        ⟨{ d with cpucore_state := s },
          some (toInt32 (usub64 d.max_cpu_core_num s))⟩
      else ⟨d, none⟩ := by
  simp [cpucore_set_cur_state, hstop, hbit]

/-- A latched record freezes `cpucore_notify_state` entirely: every branch
commits through `set_cur_state`, which returns with no effect. -/
theorem notify_state_of_stopped (d : CpucoreCoolingDevice) (tz : ThermalZone)
    (ty : ThermalTripType) (h : d.stop_flag = true) :
    cpucore_notify_state d tz ty = ⟨d, none⟩ := by
  cases ty <;> simp only [cpucore_notify_state]
  case HOT =>
    by_cases he : tz.enter_hot <;>
      simp [he, set_cur_state_of_stopped _ _ h]

/-- The latch after one `set_cur_state` call: unchanged, or set by a
flagged request on an unlatched record. -/
theorem set_cur_state_stop_flag_mono (d : CpucoreCoolingDevice) (s : ℕ) :
    (cpucore_set_cur_state d s).dev.stop_flag = d.stop_flag ∨
      (d.stop_flag = false ∧
        (cpucore_set_cur_state d s).dev.stop_flag = true) := by
  by_cases hstop : d.stop_flag
  · rw [set_cur_state_of_stopped d s hstop]
    exact Or.inl rfl
  · rw [Bool.not_eq_true] at hstop
    by_cases hbit : s &&& CPU_STOP = CPU_STOP
    · refine Or.inr ⟨hstop, ?_⟩
      simp only [cpucore_set_cur_state, hstop, Bool.false_eq_true,
        if_false, hbit, if_true]
      split <;> rfl
    · rw [set_cur_state_plain d s hstop hbit]
      refine Or.inl ?_
      split <;> rfl

/-- C1 (code bug).  The claimed saturation policy does not hold of the
code: on a fresh record with `max_throttle = 4`, the flag-free request 7 is
NOT dropped.  `max_cpu_core_num - state` is computed on `unsigned long`, so
`4 - 7` wraps to `2 ^ 64 - 3 > 0`: the call commits `cpucore_state = 7` and
issues the actuation call with `set_max_num = -3` active cores. -/
theorem set_cur_state_overflow_commits :
    cpucore_set_cur_state ⟨0, 4, 0, false⟩ 7 =
      ⟨⟨0, 4, 7, false⟩, some (-3)⟩ := by
  decide

/-- C2 counterexample.  The notification algorithm is NOT unaffected by the
stop latch: the same `notify(HOT, enter_hot = false)` call that resets an
unlatched record's level to 0 leaves a latched record's level at 2, because
its commit goes through `set_cur_state`, which the latch freezes. -/
theorem notify_latched_counterexample :
    (cpucore_notify_state ⟨0, 8, 2, true⟩ ⟨false, []⟩ .HOT).dev.cpucore_state
        = 2 ∧
    (cpucore_notify_state ⟨0, 8, 2, false⟩ ⟨false, []⟩ .HOT).dev.cpucore_state
        = 0 := by
  decide

/-- C2 amended.  Once the stopped latch of a record is true, `set_cur_state`
is a no-op on that record, and the notification algorithm — whose every
branch commits through `set_cur_state` — is frozen as well: no notify call
changes the record or issues an actuation call. -/
theorem stopped_freezes_set_and_notify (d : CpucoreCoolingDevice) (s : ℕ)
    (tz : ThermalZone) (ty : ThermalTripType) (h : d.stop_flag = true) :
    cpucore_set_cur_state d s = ⟨d, none⟩ ∧
    cpucore_notify_state d tz ty = ⟨d, none⟩ :=
  ⟨set_cur_state_of_stopped d s h, notify_state_of_stopped d tz ty h⟩

/-- Witness for the amended C2 at a concrete input. -/
theorem stopped_freezes_set_and_notify_witness :
    cpucore_set_cur_state ⟨0, 8, 3, true⟩ 1 = ⟨⟨0, 8, 3, true⟩, none⟩ ∧
    cpucore_notify_state ⟨0, 8, 3, true⟩ ⟨true, [some 5]⟩ .HOT =
      ⟨⟨0, 8, 3, true⟩, none⟩ :=
  stopped_freezes_set_and_notify ⟨0, 8, 3, true⟩ 1 ⟨true, [some 5]⟩ .HOT rfl

/-- C3 counterexample.  `notify(HOT, enter_hot = false)` does not reset
every record: on a record whose stop latch is set, the accumulated level 3
survives the call instead of becoming 0. -/
theorem notify_clear_stopped_counterexample :
    (cpucore_notify_state ⟨1, 4, 3, true⟩ ⟨false, []⟩ .HOT).dev.cpucore_state
      ≠ 0 := by
  decide

/-- C3 amended.  For every record whose stop latch is unset and which
satisfies the record invariant `current_throttle < max_throttle`, a single
`notify(HOT, enter_hot = false)` call resets `current_throttle` to 0,
regardless of how much throttling had accumulated before the call. -/
theorem notify_clear_resets (d : CpucoreCoolingDevice) (tz : ThermalZone)
    (h1 : d.stop_flag = false)
    (h2 : d.cpucore_state < d.max_cpu_core_num)
    (h3 : tz.enter_hot = false) :
    cpucore_get_cur_state (cpucore_notify_state d tz .HOT).dev = 0 := by
  have hbit : (0 : ℕ) &&& CPU_STOP ≠ CPU_STOP := by decide
  simp only [cpucore_notify_state, h3, Bool.false_eq_true, if_false]
  rw [set_cur_state_plain d 0 h1 hbit,
    if_pos ((usub64_pos_iff _ _).2 (by omega))]
  rfl

/-- Witness for the amended C3 at a concrete input: accumulated level 5. -/
theorem notify_clear_resets_witness :
    cpucore_get_cur_state
      (cpucore_notify_state ⟨0, 8, 5, false⟩ ⟨false, []⟩ .HOT).dev = 0 :=
  notify_clear_resets ⟨0, 8, 5, false⟩ ⟨false, []⟩ rfl (by decide) rfl

/-- C5.  A `set_cur_state` request carrying the stop flag on an unlatched
record with stripped level `2 < N` sets the latch and commits level 2, and
afterwards every `set_cur_state` request — flagged or not — leaves
`get_cur_state` at 2. -/
theorem stop_request_latches_then_freezes (d : CpucoreCoolingDevice)
    (s : ℕ) (h1 : d.stop_flag = false) (h2 : 2 < d.max_cpu_core_num) :
    (cpucore_set_cur_state d (CPU_STOP ||| 2)).dev.stop_flag = true ∧
    cpucore_get_cur_state (cpucore_set_cur_state d (CPU_STOP ||| 2)).dev
      = 2 ∧
    cpucore_get_cur_state
      (cpucore_set_cur_state
        (cpucore_set_cur_state d (CPU_STOP ||| 2)).dev s).dev = 2 := by
  have hb : (CPU_STOP ||| 2) &&& CPU_STOP = CPU_STOP := by decide
  have hs2 : (CPU_STOP ||| 2) &&& CPU_STOP_COMPL = 2 := by decide
  have hkey : cpucore_set_cur_state d (CPU_STOP ||| 2) =
      ⟨{ d with stop_flag := true, cpucore_state := 2 },
        some (toInt32 (usub64 d.max_cpu_core_num 2))⟩ := by
    simp only [cpucore_set_cur_state, h1, Bool.false_eq_true, if_false,
      hb, if_true, hs2]
    rw [if_pos ((usub64_pos_iff _ _).2 (by omega))]
  rw [hkey]
  refine ⟨rfl, rfl, ?_⟩
  rw [set_cur_state_of_stopped _ s rfl]
  rfl

/-- Witness for C5 at a concrete input: `N = 4`, follow-up request 0. -/
theorem stop_request_latches_then_freezes_witness :
    (cpucore_set_cur_state ⟨0, 4, 0, false⟩ (CPU_STOP ||| 2)).dev.stop_flag
      = true ∧
    cpucore_get_cur_state
      (cpucore_set_cur_state ⟨0, 4, 0, false⟩ (CPU_STOP ||| 2)).dev = 2 ∧
    cpucore_get_cur_state
      (cpucore_set_cur_state
        (cpucore_set_cur_state ⟨0, 4, 0, false⟩ (CPU_STOP ||| 2)).dev 0).dev
      = 2 :=
  stop_request_latches_then_freezes ⟨0, 4, 0, false⟩ 0 rfl (by decide)

/-- C8.  The stop latch is monotonic: `set_cur_state` and `notify_state`
(the only operations that produce a successor record; the getters and the
power-model stubs read only) either leave `stop_flag` unchanged or take it
from false to true, and never reset it. -/
theorem stop_flag_monotone (d : CpucoreCoolingDevice) (s : ℕ)
    (tz : ThermalZone) (ty : ThermalTripType) :
    ((cpucore_set_cur_state d s).dev.stop_flag = d.stop_flag ∨
      (d.stop_flag = false ∧
        (cpucore_set_cur_state d s).dev.stop_flag = true)) ∧
    ((cpucore_notify_state d tz ty).dev.stop_flag = d.stop_flag ∨
      (d.stop_flag = false ∧
        (cpucore_notify_state d tz ty).dev.stop_flag = true)) := by
  refine ⟨set_cur_state_stop_flag_mono d s, ?_⟩
  cases ty <;> simp only [cpucore_notify_state]
  case HOT =>
    by_cases he : tz.enter_hot <;> simp only [he, if_true, if_false,
      Bool.false_eq_true] <;> exact set_cur_state_stop_flag_mono d _
  all_goals exact Or.inl trivial

/-- C10.  A flagged request whose stripped level equals `max_throttle` on an
unlatched record still sets the latch, while the level commit is rejected by
the saturation check: `current_throttle` is unchanged and no actuation call
is issued. -/
theorem stop_request_saturated_latches_only (d : CpucoreCoolingDevice)
    (r : ℕ) (h1 : d.stop_flag = false)
    (h2 : r &&& CPU_STOP = CPU_STOP)
    (h3 : r &&& CPU_STOP_COMPL = d.max_cpu_core_num) :
    (cpucore_set_cur_state d r).dev.stop_flag = true ∧
    cpucore_get_cur_state (cpucore_set_cur_state d r).dev =
      cpucore_get_cur_state d ∧
    (cpucore_set_cur_state d r).actuation = none := by
  simp only [cpucore_set_cur_state, h1, Bool.false_eq_true, if_false,
    h2, if_true, h3]
  rw [if_neg (by simp [usub64_pos_iff])]
  exact ⟨rfl, rfl, rfl⟩

/-- Witness for C10 at a concrete input: `N = 4`, request `CPU_STOP + 4`. -/
theorem stop_request_saturated_latches_only_witness :
    (cpucore_set_cur_state ⟨0, 4, 1, false⟩ (2 ^ 31 + 4)).dev.stop_flag
      = true ∧
    cpucore_get_cur_state
      (cpucore_set_cur_state ⟨0, 4, 1, false⟩ (2 ^ 31 + 4)).dev =
      cpucore_get_cur_state ⟨0, 4, 1, false⟩ ∧
    (cpucore_set_cur_state ⟨0, 4, 1, false⟩ (2 ^ 31 + 4)).actuation = none :=
  stop_request_saturated_latches_only ⟨0, 4, 1, false⟩ (2 ^ 31 + 4) rfl
    (by decide) (by decide)

/-- The scan accumulator never decreases. -/
theorem le_foldl_upperStep (l : List (Option ℕ)) :
    ∀ a : ℤ, a ≤ l.foldl upperStep a := by
  induction l with
  | nil => intro a; exact le_refl a
  | cons o t ih =>
    intro a
    have h1 : a ≤ upperStep a o := by
      cases o with
      | none => exact le_refl a
      | some v =>
        simp only [upperStep]
        split
        · omega
        · exact le_refl a
    exact le_trans h1 (ih (upperStep a o))

/-- Every bound instance's declared upper bound is dominated by the scan. -/
theorem foldl_upperStep_ge (l : List (Option ℕ)) :
    ∀ (a : ℤ) (v : ℕ), some v ∈ l → (v : ℤ) ≤ l.foldl upperStep a := by
  induction l with
  | nil => intro a v hv; simp at hv
  | cons o t ih =>
    intro a v hv
    rcases List.mem_cons.1 hv with he | ht
    · have h1 : (v : ℤ) ≤ upperStep a o := by
        rw [← he]
        simp only [upperStep]
        split
        · exact le_refl _
        · omega
      exact le_trans h1 (le_foldl_upperStep t (upperStep a o))
    · exact ih (upperStep a o) v ht

/-- The scan result is the initial accumulator or one of the declared
upper bounds. -/
theorem foldl_upperStep_eq_init_or_mem (l : List (Option ℕ)) :
    ∀ a : ℤ, l.foldl upperStep a = a ∨
      ∃ v : ℕ, some v ∈ l ∧ l.foldl upperStep a = (v : ℤ) := by
  induction l with
  | nil => intro a; exact Or.inl rfl
  | cons o t ih =>
    intro a
    rw [List.foldl_cons]
    rcases ih (upperStep a o) with heq | ⟨v, hv, heq⟩
    · cases o with
      | none => exact Or.inl heq
      | some v =>
        by_cases hgt : (v : ℤ) > a
        · have h2 : upperStep a (some v) = (v : ℤ) := by
            simp only [upperStep]
            rw [if_pos hgt]
          rw [h2] at heq ⊢
          exact Or.inr ⟨v, List.mem_cons_self _ _, heq⟩
        · have h2 : upperStep a (some v) = a := by
            simp only [upperStep]
            rw [if_neg hgt]
          rw [h2] at heq ⊢
          exact Or.inl heq
    · exact Or.inr ⟨v, List.mem_cons_of_mem o hv, heq⟩

/-- A zone with no bound instance scans to the unconstrained default. -/
theorem foldl_upperStep_all_none (l : List (Option ℕ))
    (h : ∀ o ∈ l, o = none) : ∀ a : ℤ, l.foldl upperStep a = a := by
  induction l with
  | nil => intro a; rfl
  | cons o t ih =>
    intro a
    have ho : o = none := h o (List.mem_cons_self _ _)
    have ht : ∀ o ∈ t, o = none := fun x hx => h x (List.mem_cons_of_mem o hx)
    rw [List.foldl_cons, ho]
    exact ih ht a

/-- C6.  On `notify(HOT, enter_hot = true)`, the scanned `upper` is the
largest upper bound declared by any bound trip instance of the zone
(defaulting to `-1` when none is bound), and the call commits, through
`set_cur_state`, the current level incremented by exactly one and clamped
down to `upper` whenever a bound exists and the increment exceeds it. -/
theorem notify_hot_upper_clamp (d : CpucoreCoolingDevice) (tz : ThermalZone)
    (h : tz.enter_hot = true) :
    (tz.instances.filterMap id = [] → upperScan tz.instances = -1) ∧
    (∀ v ∈ tz.instances.filterMap id,
      (v : ℤ) ≤ upperScan tz.instances) ∧
    (upperScan tz.instances = -1 ∨
      ∃ v ∈ tz.instances.filterMap id,
        upperScan tz.instances = (v : ℤ)) ∧
    cpucore_notify_state d tz .HOT =
      cpucore_set_cur_state d
        (if upperScan tz.instances ≠ -1 ∧
            ((d.cpucore_state + 1 : ℕ) : ℤ) > upperScan tz.instances
         then (upperScan tz.instances).toNat
         else d.cpucore_state + 1) := by
  refine ⟨?_, ?_, ?_, ?_⟩
  · intro hemp
    rcases foldl_upperStep_eq_init_or_mem tz.instances (-1) with heq |
        ⟨v, hv, _⟩
    · exact heq
    · have : (some v : Option ℕ) ∈ tz.instances → v ∈
          tz.instances.filterMap id := by
        intro hm
        exact List.mem_filterMap.2 ⟨some v, hm, rfl⟩
      rw [hemp] at this
      simp at this
      exact absurd hv this
  · intro v hv
    rcases List.mem_filterMap.1 hv with ⟨o, ho, hov⟩
    cases o with
    | none => simp at hov
    | some w =>
      simp only [id] at hov
      rcases hov
      exact foldl_upperStep_ge tz.instances (-1) v ho
  · rcases foldl_upperStep_eq_init_or_mem tz.instances (-1) with heq |
        ⟨v, hv, heq⟩
    · exact Or.inl heq
    · exact Or.inr ⟨v, List.mem_filterMap.2 ⟨some v, hv, rfl⟩, heq⟩
  · simp only [cpucore_notify_state, h, if_true]
    rfl

/-- Witness for C6 at a concrete input: bounds 2 and 5 among unbound
trips, level 4 before the call. -/
theorem notify_hot_upper_clamp_witness :
    (([none, some 2, none, some 5] : List (Option ℕ)).filterMap id = [] →
      upperScan [none, some 2, none, some 5] = -1) ∧
    (∀ v ∈ ([none, some 2, none, some 5] :
        List (Option ℕ)).filterMap id,
      (v : ℤ) ≤ upperScan [none, some 2, none, some 5]) ∧
    (upperScan [none, some 2, none, some 5] = -1 ∨
      ∃ v ∈ ([none, some 2, none, some 5] :
          List (Option ℕ)).filterMap id,
        upperScan [none, some 2, none, some 5] = (v : ℤ)) ∧
    cpucore_notify_state ⟨0, 8, 4, false⟩
        ⟨true, [none, some 2, none, some 5]⟩ .HOT =
      cpucore_set_cur_state ⟨0, 8, 4, false⟩
        (if upperScan [none, some 2, none, some 5] ≠ -1 ∧
            (((⟨0, 8, 4, false⟩ : CpucoreCoolingDevice).cpucore_state + 1 :
              ℕ) : ℤ) > upperScan [none, some 2, none, some 5]
         then (upperScan [none, some 2, none, some 5]).toNat
         else (⟨0, 8, 4, false⟩ : CpucoreCoolingDevice).cpucore_state + 1) :=
  notify_hot_upper_clamp ⟨0, 8, 4, false⟩
    ⟨true, [none, some 2, none, some 5]⟩ rfl

/-- Invariant of repeated unbounded `notify(HOT, true)` calls on a fresh
record: the level tracks `min k (N - 1)`, the latch stays clear. -/
theorem notifyIter_unbounded_inv (tz : ThermalZone)
    (hhot : tz.enter_hot = true) (hnone : ∀ o ∈ tz.instances, o = none)
    (d : CpucoreCoolingDevice) (N : ℕ)
    (hd1 : d.max_cpu_core_num = N) (hd2 : d.stop_flag = false)
    (hd3 : d.cpucore_state = 0) (h1 : 1 ≤ N) (h2 : N < CPU_STOP) :
    ∀ k, (notifyIter tz d k).max_cpu_core_num = N ∧
      (notifyIter tz d k).stop_flag = false ∧
      (notifyIter tz d k).cpucore_state = min k (N - 1) := by
  intro k
  induction k with
  | zero =>
    refine ⟨hd1, hd2, ?_⟩
    show d.cpucore_state = min 0 (N - 1)
    rw [hd3]
    omega
  | succ k ih =>
    obtain ⟨hm, hf, hs⟩ := ih
    have hscan : upperScan tz.instances = -1 :=
      foldl_upperStep_all_none tz.instances hnone (-1)
    have hstep : notifyIter tz d (k + 1) =
        (cpucore_set_cur_state (notifyIter tz d k)
          ((notifyIter tz d k).cpucore_state + 1)).dev := by
      simp only [notifyIter, cpucore_notify_state, hhot, if_true, hscan,
        cpucore_get_cur_state]
      simp
    have harg : (notifyIter tz d k).cpucore_state + 1 < CPU_STOP := by
      omega
    have hbit := and_stop_ne_of_lt _ harg
    rw [hstep, set_cur_state_plain _ _ hf hbit]
    by_cases hlt : usub64 (notifyIter tz d k).max_cpu_core_num
        ((notifyIter tz d k).cpucore_state + 1) > 0
    · rw [if_pos hlt]
      have hne := (usub64_pos_iff _ _).1 hlt
      refine ⟨hm, hf, ?_⟩
      show (notifyIter tz d k).cpucore_state + 1 = min (k + 1) (N - 1)
      omega
    · rw [if_neg hlt]
      have heq : (notifyIter tz d k).max_cpu_core_num =
          (notifyIter tz d k).cpucore_state + 1 := by
        by_contra hne
        exact hlt ((usub64_pos_iff _ _).2 hne)
      refine ⟨hm, hf, ?_⟩
      show (notifyIter tz d k).cpucore_state = min (k + 1) (N - 1)
      omega

/-- C4.  Starting from a freshly registered device with
`max_throttle = N` (a platform core count: `1 ≤ N < 2 ^ 31`), after any
`k` calls to `notify(HOT, enter_hot = true)` on a zone with no upper bound
in effect, `get_cur_state` reports `min k (N - 1)`; in particular the
state never reaches `N`. -/
theorem notify_hot_unbounded_progression (st st' : RegState) (N k : ℕ)
    (d : CpucoreCoolingDevice) (tz : ThermalZone)
    (hreg : cpucore_cooling_register st N true true true = (.ok d, st'))
    (h1 : 1 ≤ N) (h2 : N < CPU_STOP)
    (hhot : tz.enter_hot = true)
    (hnone : ∀ o ∈ tz.instances, o = none) :
    cpucore_get_cur_state (notifyIter tz d k) = min k (N - 1) ∧
    cpucore_get_cur_state (notifyIter tz d k) < N := by
  have hd : (⟨(get_idr st.idr).1, N, 0, false⟩ : CpucoreCoolingDevice)
      = d := Except.ok.inj (congrArg Prod.fst hreg)
  have hinv := notifyIter_unbounded_inv tz hhot hnone d N
    (by rw [← hd]) (by rw [← hd]) (by rw [← hd]) h1 h2 k
  refine ⟨hinv.2.2, ?_⟩
  rw [cpucore_get_cur_state, hinv.2.2]
  omega

/-- Witness for C4 at a concrete input: `N = 4`, `k = 6`, a fresh register
from an empty subsystem state, one unbound trip. -/
theorem notify_hot_unbounded_progression_witness :
    cpucore_get_cur_state
        (notifyIter ⟨true, [none]⟩ ⟨0, 4, 0, false⟩ 6) = min 6 (4 - 1) ∧
    cpucore_get_cur_state
        (notifyIter ⟨true, [none]⟩ ⟨0, 4, 0, false⟩ 6) < 4 :=
  notify_hot_unbounded_progression ⟨∅, []⟩ ⟨{0}, [⟨0, 4, 0, false⟩]⟩ 4 6
    ⟨0, 4, 0, false⟩ ⟨true, [none]⟩ rfl (by decide) (by decide) rfl
    (by decide)

/-- The fuel-bounded identifier scan is correct: with enough fuel it lands
on an id not outstanding, no earlier id (from the start point on) being
free. -/
theorem idrScan_spec (s : Finset ℕ) :
    ∀ fuel n, (s.filter (fun m => n ≤ m)).card ≤ fuel →
      idrScan s n fuel ∉ s ∧ n ≤ idrScan s n fuel ∧
      ∀ m, n ≤ m → m < idrScan s n fuel → m ∈ s := by
  intro fuel
  induction fuel with
  | zero =>
    intro n h
    have hn : n ∉ s := by
      intro hmem
      have h1 : n ∈ s.filter (fun m => n ≤ m) :=
        Finset.mem_filter.2 ⟨hmem, le_refl n⟩
      have h2 := Finset.card_pos.2 ⟨n, h1⟩
      omega
    exact ⟨hn, le_refl n, fun m hm1 hm2 => absurd (lt_of_le_of_lt hm1 hm2)
      (lt_irrefl n)⟩
  | succ fuel ih =>
    intro n h
    by_cases hn : n ∈ s
    · have hins : s.filter (fun m => n ≤ m) =
          insert n (s.filter (fun m => n + 1 ≤ m)) := by
        ext m
        simp only [Finset.mem_filter, Finset.mem_insert]
        constructor
        · rintro ⟨hm, hle⟩
          rcases Nat.eq_or_lt_of_le hle with he | hlt
          · exact Or.inl he.symm
          · exact Or.inr ⟨hm, hlt⟩
        · rintro (rfl | ⟨hm, hle⟩)
          · exact ⟨hn, le_refl m⟩
          · exact ⟨hm, by omega⟩
      have hnmem : n ∉ s.filter (fun m => n + 1 ≤ m) := by
        simp [Finset.mem_filter]
      have hcard : (s.filter (fun m => n ≤ m)).card =
          (s.filter (fun m => n + 1 ≤ m)).card + 1 := by
        rw [hins, Finset.card_insert_of_not_mem hnmem]
      obtain ⟨hfree, hge, hmin⟩ := ih (n + 1) (by omega)
      have heq : idrScan s n (fuel + 1) = idrScan s (n + 1) fuel := by
        simp only [idrScan, hn, if_true]
      rw [heq]
      refine ⟨hfree, by omega, ?_⟩
      intro m hm1 hm2
      rcases Nat.eq_or_lt_of_le hm1 with he | hlt
      · rwa [← he]
      · exact hmin m hlt hm2
    · have heq : idrScan s n (fuel + 1) = n := by
        simp only [idrScan, hn, if_false]
      rw [heq]
      exact ⟨hn, le_refl n, fun m hm1 hm2 => absurd (lt_of_le_of_lt hm1 hm2)
        (lt_irrefl n)⟩

/-- The id handed out by `get_idr` is not outstanding. -/
theorem get_idr_fst_not_mem (s : Finset ℕ) : (get_idr s).1 ∉ s :=
  (idrScan_spec s s.card 0 (Finset.card_filter_le s _)).1

/-- Every id below the one handed out by `get_idr` is outstanding. -/
theorem get_idr_fst_min (s : Finset ℕ) :
    ∀ m, m < (get_idr s).1 → m ∈ s :=
  fun m hm =>
    (idrScan_spec s s.card 0 (Finset.card_filter_le s _)).2.2 m
      (Nat.zero_le m) hm

/-- C9.  `get_idr` returns the smallest non-negative integer not currently
outstanding and marks it outstanding; `release_idr` removes it again, so on
an otherwise idle allocator, allocate → release → allocate yields the same
id both times. -/
theorem idr_alloc_release_alloc (s : Finset ℕ) :
    (get_idr s).1 ∉ s ∧
    (∀ m, m < (get_idr s).1 → m ∈ s) ∧
    release_idr (get_idr s).2 (get_idr s).1 = s ∧
    get_idr (release_idr (get_idr s).2 (get_idr s).1) = get_idr s := by
  have hrel : release_idr (get_idr s).2 (get_idr s).1 = s :=
    Finset.erase_insert (get_idr_fst_not_mem s)
  refine ⟨get_idr_fst_not_mem s, get_idr_fst_min s, hrel, ?_⟩
  rw [hrel]

/-- Witness for C9 at a concrete input: outstanding ids 0, 1 and 3. -/
theorem idr_alloc_release_alloc_witness :
    (get_idr {0, 1, 3}).1 ∉ ({0, 1, 3} : Finset ℕ) ∧
    (∀ m, m < (get_idr {0, 1, 3}).1 → m ∈ ({0, 1, 3} : Finset ℕ)) ∧
    release_idr (get_idr {0, 1, 3}).2 (get_idr {0, 1, 3}).1 =
      ({0, 1, 3} : Finset ℕ) ∧
    get_idr (release_idr (get_idr {0, 1, 3}).2 (get_idr {0, 1, 3}).1) =
      get_idr {0, 1, 3} :=
  idr_alloc_release_alloc {0, 1, 3}

/-- C7.  When registration fails at the identifier-allocation stage or the
framework-binding stage, it returns the `-EINVAL` failure and rolls back
all partial state: the subsystem state (outstanding ids and live records)
is exactly as before the call, the already-allocated id having been
released in the binding-failure case. -/
theorem register_failure_rollback (st : RegState) (N : ℕ)
    (idrOk bindOk : Bool) (h : idrOk = false ∨ bindOk = false) :
    cpucore_cooling_register st N true idrOk bindOk =
      (.error .EINVAL, st) := by
  rcases h with h | h
  · subst h
    rfl
  · subst h
    cases idrOk with
    | false => rfl
    | true =>
      have hh : release_idr (get_idr st.idr).2 (get_idr st.idr).1 =
          st.idr := Finset.erase_insert (get_idr_fst_not_mem st.idr)
      show (Except.error RegError.EINVAL,
            RegState.mk (release_idr (get_idr st.idr).2 (get_idr st.idr).1)
              st.records) =
          (Except.error RegError.EINVAL, st)
      rw [hh]

/-- Witness for C7 at a concrete input: binding failure with id 1 already
outstanding. -/
theorem register_failure_rollback_witness :
    cpucore_cooling_register ⟨{1}, []⟩ 4 true true false =
      (.error .EINVAL, ⟨{1}, []⟩) :=
  register_failure_rollback ⟨{1}, []⟩ 4 true false (Or.inr rfl)

end CpucoreCooling
